import Mathlib

/-!
Verification development for the SoundCloud downloader bot
(`src/api/bot.py`, `src/api/index.py`).

Strings are modelled as `List Char` (Python strings are sequences of code
points, and Python slicing/striping acts on code points).  The regex
character classes `\w` and `\s` are modelled by their ASCII restrictions;
none of the properties below depends on the non-ASCII extent of those
classes.
-/

set_option maxRecDepth 100000

namespace SCBot

/-- A filesystem path (or any Python string). -/
abbrev Pstr := List Char

/-- The regex class `\w`: alphanumerics and underscore (ASCII restriction). -/
def isWordChar (c : Char) : Bool :=
  c.isAlphanum || c = '_'

/-- The regex class `\s` / `str.strip` whitespace (ASCII restriction). -/
def isSpaceChar (c : Char) : Bool :=
  c = ' ' || c = '\t' || c = '\n' || c = '\r' || c = '\x0b' || c = '\x0c'

/-- The characters replaced by `re.sub(r'[<>:"/\\|?*]', '_', filename)`
(bot.py line 77). -/
def illegalChars : List Char :=
  ['<', '>', ':', '"', '/', '\\', '|', '?', '*']

/-- The character class kept by `re.sub(r'[^\w\s\-_\.]', '', filename)`
(bot.py line 78): word characters, whitespace, hyphen, underscore, dot. -/
def keepChar (c : Char) : Bool :=
  isWordChar c || isSpaceChar c || c = '-' || c = '_' || c = '.'

/-- bot.py line 77: `filename = re.sub(r'[<>:"/\\|?*]', '_', filename)`. -/
def replaceIllegal (s : Pstr) : Pstr :=
  s.map (fun c => if c ∈ illegalChars then '_' else c)

/-- bot.py line 78: `filename = re.sub(r'[^\w\s\-_\.]', '', filename)`. -/
def stripDisallowed (s : Pstr) : Pstr :=
  s.filter keepChar

/-- Python `str.strip()` (bot.py line 79): drop leading and trailing
whitespace. -/
def stripList (s : Pstr) : Pstr :=
  ((s.dropWhile isSpaceChar).reverse.dropWhile isSpaceChar).reverse

/-- bot.py lines 81-82: `if len(filename) > 200: filename = filename[:200]`. -/
def truncate200 (s : Pstr) : Pstr :=
  if s.length > 200 then s.take 200 else s

/-- `SoundCloudDownloader.sanitize_filename` (bot.py lines 74-83). -/
def sanitize_filename (s : Pstr) : Pstr :=
  truncate200 (stripList (stripDisallowed (replaceIllegal s)))

/-- The four-step reference definition stated by the spec (§4.2), written
from the spec's words: (1) replace the illegal characters with an
underscore, (2) delete every remaining character outside word characters,
whitespace, hyphen, underscore, dot, (3) trim surrounding whitespace,
(4) truncate to 200 characters. -/
def sanitizeSpecRef (s : Pstr) : Pstr :=
  let s1 := s.map (fun c => if c ∈ illegalChars then '_' else c)
  let s2 := s1.filter (fun c =>
    isWordChar c || isSpaceChar c || c = '-' || c = '_' || c = '.')
  let s3 := ((s2.dropWhile isSpaceChar).reverse.dropWhile isSpaceChar).reverse
  s3.take 200

/-- Does the string end in a whitespace character? -/
def endsInSpace (l : Pstr) : Bool :=
  match l.getLast? with
  | some c => isSpaceChar c
  | none => false

/-- 199 copies of 'a', a space, then 'b': 201 characters, so the sanitizer
truncates away the final 'b' and leaves a trailing space. -/
def xC2 : Pstr := List.replicate 199 'a' ++ [' ', 'b']

/-- A title already in sanitized form. -/
def xC2w : Pstr := ("Song Title").data

/-! ### Basic facts about the sanitizer -/

theorem keepChar_of_mem_stripDisallowed {c : Char} {s : Pstr}
    (h : c ∈ stripDisallowed s) : keepChar c = true :=
  List.of_mem_filter h

theorem stripList_subset {s : Pstr} : ∀ c ∈ stripList s, c ∈ s := by
  intro c hc
  unfold stripList at hc
  rw [List.mem_reverse] at hc
  have h1 := (List.dropWhile_sublist (l := (s.dropWhile isSpaceChar).reverse)
    (p := isSpaceChar)).mem hc
  rw [List.mem_reverse] at h1
  exact (List.dropWhile_sublist (l := s) (p := isSpaceChar)).mem h1

theorem truncate200_subset {s : Pstr} : ∀ c ∈ truncate200 s, c ∈ s := by
  intro c hc
  unfold truncate200 at hc
  by_cases h : s.length > 200
  · rw [if_pos h] at hc
    exact (List.take_sublist 200 s).mem hc
  · rwa [if_neg h] at hc

theorem keepChar_of_mem_sanitize {c : Char} {s : Pstr}
    (h : c ∈ sanitize_filename s) : keepChar c = true := by
  unfold sanitize_filename at h
  exact keepChar_of_mem_stripDisallowed (stripList_subset _ (truncate200_subset _ h))

theorem keepChar_illegal : ∀ c ∈ illegalChars, keepChar c = false := by
  decide

theorem not_illegal_of_mem_sanitize {c : Char} {s : Pstr}
    (h : c ∈ sanitize_filename s) : c ∉ illegalChars := by
  intro hmem
  have h1 := keepChar_of_mem_sanitize h
  have h2 := keepChar_illegal c hmem
  rw [h1] at h2
  exact absurd h2 (by simp)

theorem sanitize_length_le (s : Pstr) : (sanitize_filename s).length ≤ 200 := by
  unfold sanitize_filename truncate200
  by_cases h : (stripList (stripDisallowed (replaceIllegal s))).length > 200
  · rw [if_pos h, List.length_take]
    exact min_le_left _ _
  · rw [if_neg h]
    omega

theorem sanitize_eq_specRef (s : Pstr) : sanitize_filename s = sanitizeSpecRef s := by
  unfold sanitize_filename sanitizeSpecRef truncate200 stripList stripDisallowed keepChar
    replaceIllegal
  by_cases h : ((((s.map fun c => if c ∈ illegalChars then '_' else c).filter fun c =>
      isWordChar c || isSpaceChar c || c = '-' || c = '_' ||
        c = '.').dropWhile isSpaceChar).reverse.dropWhile isSpaceChar).reverse.length > 200
  · rw [if_pos h]
  · rw [if_neg h]
    rw [List.take_of_length_le (by omega)]

/-! ### Delivery gate (bot.py lines 203-221) -/

/-- The attachment size ceiling: `50 * 1024 * 1024` bytes (bot.py line 211). -/
def sizeCap : Nat := 50 * 1024 * 1024

inductive GateOutcome
  | rejectedMissing
  | rejectedTooLarge
  | rejectedEmpty
  | accepted
deriving DecidableEq

inductive GateCheck
  | existenceCheck
  | zeroSizeCheck
  | ceilingCheck
deriving DecidableEq

/-- The delivery gate of `soundcloud_handler` (bot.py lines 203-221), on a
file modelled as `none` (missing) or `some size`.  Besides the outcome it
records which checks run and in which order, following the source: existence
(line 204), then the 50 MiB ceiling (line 211), then zero size (line 217);
each rejection returns immediately. -/
def gate (file : Option Nat) : GateOutcome × List GateCheck :=
  match file with
  | none => (.rejectedMissing, [.existenceCheck])
  | some size =>
    if size > sizeCap then
      (.rejectedTooLarge, [.existenceCheck, .ceilingCheck])
    else if size = 0 then
      (.rejectedEmpty, [.existenceCheck, .ceilingCheck, .zeroSizeCheck])
    else
      (.accepted, [.existenceCheck, .ceilingCheck, .zeroSizeCheck])

/-- The gate in the check order the claim states: existence, then zero size,
then the size ceiling.  Written from the claim's words, for comparison with
`gate` above. -/
def gateClaimedOrder (file : Option Nat) : GateOutcome × List GateCheck :=
  match file with
  | none => (.rejectedMissing, [.existenceCheck])
  | some size =>
    if size = 0 then
      (.rejectedEmpty, [.existenceCheck, .zeroSizeCheck])
    else if size > sizeCap then
      (.rejectedTooLarge, [.existenceCheck, .zeroSizeCheck, .ceilingCheck])
    else
      (.accepted, [.existenceCheck, .zeroSizeCheck, .ceilingCheck])

/-! ### Exceptions and failure-message selection (bot.py lines 272-319) -/

/-- The Python exceptions distinguished by `soundcloud_handler`'s except
clauses: `yt_dlp.DownloadError` (with its message), `FileNotFoundError`,
`asyncio.TimeoutError`, and any other `Exception` (with its message). -/
inductive PyExn
  | downloadError (detail : Pstr)
  | fileNotFound
  | timeoutError
  | otherExn (detail : Pstr)
deriving DecidableEq

/-- Python `str.lower()` (ASCII case mapping; the probed needles
"private" / "not available" are ASCII). -/
def lowerStr (s : Pstr) : Pstr := s.map Char.toLower

/-- bot.py lines 277-284: the access-restricted template. -/
def accessErrorMsg : Pstr :=
  ("❌ <b>Ошибка доступа к треку</b>\n\nВозможные причины:\n• Трек является приватным\n• Трек недоступен в вашем регионе\n• Трек был удален автором\n\nПопробуйте другую ссылку.").data

/-- bot.py lines 286-293: the platform/network failure template. -/
def platformErrorMsg : Pstr :=
  ("❌ <b>Ошибка загрузки с SoundCloud</b>\n\nВозможные причины:\n• Проблемы с доступом к SoundCloud\n• Временные технические неполадки\n• Неподдерживаемый формат трека\n\nПопробуйте еще раз через несколько минут.").data

/-- bot.py lines 297-300: the missing-downloaded-file template. -/
def missingFileMsg : Pstr :=
  ("❌ <b>Ошибка:</b> Загруженный файл не найден.\nПопробуйте еще раз.").data

/-- bot.py lines 304-308: the timeout template. -/
def timeoutMsg : Pstr :=
  ("❌ <b>Таймаут загрузки</b>\n\nЗагрузка заняла слишком много времени.\nПопробуйте еще раз или выберите другой трек.").data

/-- bot.py lines 312-319: the unclassified-error template. -/
def unexpectedMsg : Pstr :=
  ("❌ <b>Произошла неожиданная ошибка</b>\n\nВозможные причины:\n• Временные проблемы с сервисом\n• Проблемы с интернет-соединением\n• Неподдерживаемый формат трека\n\nПопробуйте еще раз через несколько минут.").data

/-- bot.py line 205: the in-pipeline missing-file message. -/
def cantDownloadMsg : Pstr :=
  ("❌ <b>Ошибка:</b> Не удалось загрузить файл.").data

/-- bot.py lines 212-214: the too-large rejection message. -/
def tooLargeMsg : Pstr :=
  ("❌ <b>Ошибка:</b> Файл слишком большой для отправки через Telegram (>50MB).").data

/-- bot.py lines 218-220: the empty-file rejection message. -/
def emptyFileMsg : Pstr :=
  ("❌ <b>Ошибка:</b> Загруженный файл пуст.").data

/-- Python's substring operator `needle in haystack`. -/
def isSubstring (needle haystack : Pstr) : Bool :=
  match haystack with
  | [] => needle.isEmpty
  | _ :: t => needle.isPrefixOf haystack || isSubstring needle t

/-- The condition of bot.py line 276:
`"private" in error_message or "not available" in error_message`,
where `error_message = str(e).lower()`. -/
def isAccessRestricted (d : Pstr) : Bool :=
  isSubstring (("private").data) (lowerStr d) ||
    isSubstring (("not available").data) (lowerStr d)

/-- The user-facing message selection of bot.py lines 272-319: one fixed
template per error category; only the boolean access-restriction test reads
the exception's own message. -/
def selectMessage (e : PyExn) : Pstr :=
  match e with
  | .downloadError d => if isAccessRestricted d then accessErrorMsg else platformErrorMsg
  | .fileNotFound => missingFileMsg
  | .timeoutError => timeoutMsg
  | .otherExn _ => unexpectedMsg

/-- The five exception templates of bot.py lines 272-319. -/
def failureTemplates : List Pstr :=
  [accessErrorMsg, platformErrorMsg, missingFileMsg, timeoutMsg, unexpectedMsg]

/-! ### Track metadata and the caption (bot.py lines 229-258) -/

/-- A Python value as stored in the extractor's info dict.  Numeric values
(Python int; a float duration is truncated by `int(duration)` before
formatting) are modelled by their integer value. -/
inductive PyVal
  | pyInt (n : Int)
  | pyStr (s : Pstr)
  | pyNone
deriving DecidableEq

/-- Python truthiness for the modelled values. -/
def truthy : PyVal → Bool
  | .pyInt n => !(n == 0)
  | .pyStr s => !s.isEmpty
  | .pyNone => false

/-- `isinstance(v, (int, float))` for the modelled values. -/
def isNumeric : PyVal → Bool
  | .pyInt _ => true
  | .pyStr _ => false
  | .pyNone => false

/-- The integer value of a numeric `PyVal` (only read under `isNumeric`). -/
def asInt : PyVal → Int
  | .pyInt n => n
  | .pyStr _ => 0
  | .pyNone => 0

/-- The extractor's info dict, restricted to the keys the handler reads. -/
structure Info where
  title : Option Pstr
  uploader : Option Pstr
  duration : Option PyVal
deriving DecidableEq

/-- Python `f"{n:02d}"`: decimal rendering zero-padded to width 2 (the sign
counts toward the width, so no negative value of magnitude below 10 gets a
pad either). -/
def pad2 (n : Int) : Pstr :=
  if n < 0 then '-' :: (Nat.repr n.natAbs).data
  else if n < 10 then '0' :: (Nat.repr n.toNat).data
  else (Nat.repr n.toNat).data

/-- bot.py lines 232-242: `duration = info.get('duration', 0)`; if it is
truthy and numeric, format `duration // 60` and `duration % 60` zero-padded
(Python floor division and non-negative remainder), else the "unknown"
text. -/
def formatDuration (d : Option PyVal) : Pstr :=
  let dur := d.getD (.pyInt 0)
  if truthy dur && isNumeric dur then
    pad2 ((asInt dur).fdiv 60) ++ ':' :: pad2 ((asInt dur).emod 60)
  else
    ("Неизвестно").data

/-- Approximation of CPython's `f"{file_size / (1024*1024):.1f}"`:
megabytes to one decimal place, round-half-up on the exact rational.  (The
exact binary-float rounding is immaterial to every claim below.) -/
def sizeMBStr (size : Nat) : Pstr :=
  let tenths := (size * 10 + 524288) / 1048576
  (Nat.repr (tenths / 10)).data ++ '.' :: (Nat.repr (tenths % 10)).data

/-- The caption of bot.py lines 230-258, after the trailing `.strip()`
(which removes exactly the newline before the leading emoji and the
whitespace after the final tag, both fixed in the f-string literal). -/
def buildCaption (info : Info) (size : Nat) : Pstr :=
  ("🎵 <b>").data ++ info.title.getD (("Неизвестный трек").data) ++
    ("</b>\n👤 <b>Исполнитель:</b> ").data ++
    info.uploader.getD (("Неизвестный исполнитель").data) ++
    ("\n⏱ <b>Длительность:</b> ").data ++ formatDuration info.duration ++
    ("\n💾 <b>Размер:</b> ").data ++ sizeMBStr size ++
    (" MB\n\n<i>Загружено с SoundCloud</i>").data

/-- The metadata of the spec's end-to-end scenario. -/
def infoSong : Info :=
  { title := some (("Song Title").data)
    uploader := some (("Artist").data)
    duration := some (.pyInt 125) }

/-! ### The track acquirer `download_track` (bot.py lines 85-132) -/

/-- The fallback extensions probed at bot.py line 117, in source order. -/
def fallbackExts : List Pstr :=
  [(".mp3").data, (".m4a").data, (".opus").data, (".webm").data]

/-- The observable behavior of the external extraction library for one
invocation: the result of `extract_info(url, download=False)`, the files
`ydl_download.download([url])` leaves in the scratch directory (basenames),
and the exception either call raises, if any. -/
structure Extractor where
  info : Option Info
  created : List Pstr
  exn : Option PyExn

/-- `SoundCloudDownloader.download_track` (bot.py lines 85-132) against an
extractor behavior.  Returns the scratch-directory contents afterwards and
either the final file path paired with the info dict, or the propagated
exception.  When `extract_info` returns no info the code raises a plain
`Exception("Could not extract track information")` (line 96) before
`ydl.download` ever runs, so the scratch directory stays empty.  When the
expected `.mp3` target is missing, the fallback loop (lines 115-124) probes
the extensions in order and `os.rename`s the first hit onto the target,
else raises `FileNotFoundError`. -/
def download_track (ex : Extractor) : List Pstr × Except PyExn (Pstr × Info) :=
  match ex.exn with
  | some e => (ex.created, .error e)
  | none =>
    match ex.info with
    | none => ([], .error (.otherExn (("Could not extract track information").data)))
    | some info =>
      let cleanTitle := sanitize_filename (info.title.getD (("track").data))
      let filepath := cleanTitle ++ (".mp3").data
      if ex.created.contains filepath then
        (ex.created, .ok (filepath, info))
      else
        match fallbackExts.find? (fun ext => ex.created.contains (cleanTitle ++ ext)) with
        | some ext =>
          (filepath :: ex.created.erase (cleanTitle ++ ext), .ok (filepath, info))
        | none => (ex.created, .error .fileNotFound)

/-! ### The pipeline `soundcloud_handler` (bot.py lines 187-319) -/

/-- bot.py line 190: `url = message.text.strip()` — the string handed to
`downloader.download_track` is the whole stripped message text. -/
def handlerUrl (text : Pstr) : Pstr := stripList text

/-- The single terminal user-visible outcome of a handler run: either the
audio was sent (with its attachment filename and caption, the status
message deleted), or the status message was edited to one failure text. -/
inductive HandlerOutcome
  | sentAudio (filename : Pstr) (caption : Pstr)
  | failed (msg : Pstr)
deriving DecidableEq

/-- What one `soundcloud_handler` run leaves behind: the outcome, the
scratch directory content just before the `with tempfile.TemporaryDirectory`
block is exited, and its content after the context manager ran. -/
structure RunResult where
  outcome : HandlerOutcome
  scratchBeforeCleanup : List Pstr
  scratchAfterExit : List Pstr

/-- `tempfile.TemporaryDirectory.__exit__`: the directory tree is deleted,
removing every file under it, on normal and exceptional exit alike. -/
def cleanupScratch (files : List Pstr) : List Pstr :=
  files.filter (fun _ => false)

/-- One full run of `soundcloud_handler` (bot.py lines 187-319) for a
message that passed the regex filter, against an extractor behavior and
`os.path.getsize` (`sizeOf`).  The entire body — download, existence check
(line 204), size ceiling (line 211), zero-size check (line 217), send —
runs inside the `with tempfile.TemporaryDirectory()` block, and each except
clause (lines 272-319) edits the status message to one template. -/
def soundcloud_handler (ex : Extractor) (sizeOf : Pstr → Nat) : RunResult :=
  let step := download_track ex
  let files := step.1
  let outcome : HandlerOutcome :=
    match step.2 with
    | .error e => .failed (selectMessage e)
    | .ok (filepath, info) =>
      if !(files.contains filepath) then .failed cantDownloadMsg
      else
        let fileSize := sizeOf filepath
        if fileSize > sizeCap then .failed tooLargeMsg
        else if fileSize == 0 then .failed emptyFileMsg
        else
          .sentAudio
            (sanitize_filename (info.title.getD (("Неизвестный трек").data)) ++ (".mp3").data)
            (buildCaption info fileSize)
  { outcome := outcome
    scratchBeforeCleanup := files
    scratchAfterExit := cleanupScratch files }

/-- The extractor behavior whose metadata query returns no result. -/
def emptyExtractor : Extractor := { info := none, created := [], exn := none }

/-- The metadata and extractor behavior for the C7 witness: the artifact
landed under `.m4a`. -/
def infoW : Info :=
  { title := some (("Song Title").data), uploader := none, duration := none }

def exW : Extractor :=
  { info := some infoW, created := [("Song Title.m4a").data], exn := none }

/-! ### The link matcher `SOUNDCLOUD_REGEX` (bot.py lines 40-42) -/

/-- The regex class `[\w\-\.]`: characters of the owner and slug path
segments. -/
def segChar (c : Char) : Bool := isWordChar c || c = '-' || c = '.'

/-- The literal pieces of `https?://(?:www\.)?soundcloud\.com/`. -/
def httpLit : Pstr := ['h', 't', 't', 'p']

def schemeSep : Pstr := [':', '/', '/']

def wwwLit : Pstr := ['w', 'w', 'w', '.']

def scDomain : Pstr :=
  ['s', 'o', 'u', 'n', 'd', 'c', 'l', 'o', 'u', 'd', '.', 'c', 'o', 'm', '/']

/-- Strip a literal prefix, returning the rest. -/
def stripPrefixL : Pstr → Pstr → Option Pstr
  | [], s => some s
  | _ :: _, [] => none
  | p :: ps, c :: cs => if p = c then stripPrefixL ps cs else none

/-- Consume the optional `s` of `https?`. -/
def consumeS (t : Pstr) : Pstr :=
  match t with
  | c :: u => if c = 's' then u else t
  | [] => t

/-- Consume the optional `www.` host prefix. -/
def consumeWWW (t : Pstr) : Pstr :=
  match stripPrefixL wwwLit t with
  | some u => u
  | none => t

/-- Consume the literal part `https?://(?:www\.)?soundcloud\.com/` of the
pattern at the head of the string.  The optional pieces are consumed
greedily, which is complete for this pattern: after `http` no string
continues with both `s` and `://`, and `www.` and `soundcloud.com/` differ
at their first character, so the regex never needs to backtrack here. -/
def stripLiteral (s : Pstr) : Option Pstr :=
  match stripPrefixL httpLit s with
  | none => none
  | some t0 =>
    match stripPrefixL schemeSep (consumeS t0) with
    | none => none
    | some t2 => stripPrefixL scDomain (consumeWWW t2)

/-- Does `[\w\-\.]+/[\w\-\.]+` match a prefix of `t`?  Since `/` is not a
segment character, the greedy first `+` consumes exactly the maximal run
of segment characters, which must be nonempty and be followed by `/` and
at least one further segment character. -/
def tailMatch (t : Pstr) : Bool :=
  !(t.takeWhile segChar).isEmpty &&
    (match t.dropWhile segChar with
      | d :: c :: _ => d == '/' && segChar c
      | _ => false)

/-- Does `SOUNDCLOUD_REGEX` match starting exactly at the head of `s`? -/
def matchAt (s : Pstr) : Bool :=
  match stripLiteral s with
  | none => false
  | some t => tailMatch t

/-- `re.search` with `SOUNDCLOUD_REGEX`: does any position of the string
start a match?  Pure — a function of the text alone. -/
def containsMatch : Pstr → Bool
  | [] => false
  | c :: r => matchAt (c :: r) || containsMatch r

/-- The scheme as written: `http://` or `https://`. -/
def schemeStr (secure : Bool) : Pstr :=
  httpLit ++ (if secure then ['s'] else []) ++ schemeSep

/-- The optional host prefix. -/
def wwwStr (www : Bool) : Pstr := if www then wwwLit else []

/-- The spec's track-URL form (§4.1): scheme, optional `www.`, the domain,
then `owner/slug` with both segments nonempty strings of word characters,
hyphens, and dots, and nothing after. -/
def IsTrackURL (s : Pstr) : Prop :=
  ∃ secure www owner slug, owner ≠ [] ∧ slug ≠ [] ∧
    (∀ c ∈ owner, segChar c = true) ∧ (∀ c ∈ slug, segChar c = true) ∧
    s = schemeStr secure ++ wwwStr www ++ scDomain ++ (owner ++ '/' :: slug)

/-- `s` contains a match of the unanchored pattern: at some position the
scheme, optional `www.`, the domain, a nonempty owner segment, `/`, and at
least one slug character occur in sequence. -/
def HasMatch (s : Pstr) : Prop :=
  ∃ pre secure www owner c rest, owner ≠ [] ∧
    (∀ x ∈ owner, segChar x = true) ∧ segChar c = true ∧
    s = pre ++ (schemeStr secure ++ wwwStr www ++ scDomain ++ (owner ++ '/' :: c :: rest))

/-- bot.py line 187 (`@dp.message(F.text.regexp(SOUNDCLOUD_REGEX))`): the
message is routed to `soundcloud_handler` iff the pattern matches at the
START of the text — aiogram's `F.text.regexp` filter applies the pattern
with `RegexpMode.MATCH`, i.e. Python `re.Pattern.match`, anchored at the
start of the string but not at its end. -/
def triggersHandler (text : Pstr) : Bool := matchAt text

/-- The exact track URL of the spec's scenarios. -/
def urlW : Pstr := ("https://soundcloud.com/artist/song-title").data

/-- A message that contains a track URL amid other words. -/
def textW : Pstr := ("  check https://soundcloud.com/artist/song now  ").data

/-- A message that is a track URL followed by trailing whitespace. -/
def urlWs : Pstr := ("https://soundcloud.com/artist/song-title  ").data

/-! ### Fixed points of the sanitizer -/

theorem head?_dropWhile_false {α : Type} {p : α → Bool} {l : List α} {c : α}
    (h : (l.dropWhile p).head? = some c) : p c = false := by
  have h2 := List.head?_dropWhile_not p l
  rw [h] at h2
  exact h2

theorem dropWhile_eq_self_of_head {α : Type} {p : α → Bool} {l : List α}
    (h : ∀ c, l.head? = some c → p c = false) : l.dropWhile p = l := by
  cases l with
  | nil => rfl
  | cons a t =>
    have ha := h a rfl
    exact List.dropWhile_cons_of_neg (by simp [ha])

theorem replaceIllegal_eq_self {y : Pstr} (h : ∀ c ∈ y, keepChar c = true) :
    replaceIllegal y = y := by
  unfold replaceIllegal
  have h2 : ∀ c ∈ y, (if c ∈ illegalChars then '_' else c) = id c := by
    intro c hc
    rw [if_neg]
    · rfl
    intro hil
    have h3 := keepChar_illegal c hil
    rw [h c hc] at h3
    exact absurd h3 (by simp)
  rw [List.map_congr_left h2, List.map_id]

theorem sanitize_fixed {y : Pstr}
    (hkeep : ∀ c ∈ y, keepChar c = true)
    (hhead : ∀ c, y.head? = some c → isSpaceChar c = false)
    (hlast : ∀ c, y.getLast? = some c → isSpaceChar c = false)
    (hlen : y.length ≤ 200) :
    sanitize_filename y = y := by
  unfold sanitize_filename
  rw [replaceIllegal_eq_self hkeep]
  rw [show stripDisallowed y = y from List.filter_eq_self.mpr hkeep]
  have h1 : y.dropWhile isSpaceChar = y := dropWhile_eq_self_of_head hhead
  have h2 : y.reverse.dropWhile isSpaceChar = y.reverse := by
    apply dropWhile_eq_self_of_head
    intro c hc
    rw [List.head?_reverse] at hc
    exact hlast c hc
  unfold stripList
  rw [h1, h2, List.reverse_reverse]
  unfold truncate200
  rw [if_neg (by omega)]

theorem head?_truncate200 (w : Pstr) : (truncate200 w).head? = w.head? := by
  unfold truncate200
  by_cases h : w.length > 200
  · rw [if_pos h]
    cases w with
    | nil => rfl
    | cons a t => rfl
  · rw [if_neg h]

theorem head?_stripList_not_space (z : Pstr) :
    ∀ c, (stripList z).head? = some c → isSpaceChar c = false := by
  intro c hc
  have hsuf : (z.dropWhile isSpaceChar).reverse.dropWhile isSpaceChar <:+
      (z.dropWhile isSpaceChar).reverse := List.dropWhile_suffix _
  have hpre : ((z.dropWhile isSpaceChar).reverse.dropWhile isSpaceChar).reverse <+:
      z.dropWhile isSpaceChar := List.reverse_suffix.mp (by rwa [List.reverse_reverse])
  obtain ⟨t, ht⟩ := hpre
  have hc' : (z.dropWhile isSpaceChar).head? = some c := by
    rw [← ht]
    unfold stripList at hc
    cases hrev : ((z.dropWhile isSpaceChar).reverse.dropWhile isSpaceChar).reverse with
    | nil =>
      rw [hrev] at hc
      exact absurd hc (by simp)
    | cons a bs =>
      rw [hrev] at hc
      rw [List.cons_append]
      simp only [List.head?_cons] at hc ⊢
      exact hc
  exact head?_dropWhile_false hc'

theorem head?_sanitize_not_space (x : Pstr) :
    ∀ c, (sanitize_filename x).head? = some c → isSpaceChar c = false := by
  intro c hc
  unfold sanitize_filename at hc
  rw [head?_truncate200] at hc
  exact head?_stripList_not_space _ c hc

/-! ### Claims C2 and C3 -/

theorem dropWhile_eq_self_of_head_eq {p : Char → Bool} {l : List Char}
    {a : Char} (h : l.head? = some a) (ha : p a = false) :
    l.dropWhile p = l := by
  apply dropWhile_eq_self_of_head
  intro c hc
  rw [h] at hc
  rw [← Option.some.inj hc]
  exact ha

theorem xC2_keep : ∀ c ∈ xC2, keepChar c = true := by
  intro c hc
  unfold xC2 at hc
  rw [List.mem_append] at hc
  cases hc with
  | inl h =>
    rw [List.eq_of_mem_replicate h]
    decide
  | inr h =>
    simp only [List.mem_cons, List.mem_singleton] at h
    cases h with
    | inl h2 =>
      subst h2
      decide
    | inr h2 =>
      rcases h2 with h3 | h3
      · subst h3
        decide
      · exact absurd h3 (List.not_mem_nil c)

theorem xC2_head : xC2.head? = some 'a' := by
  unfold xC2
  rw [show (199 : Nat) = 198 + 1 from rfl, List.replicate_succ, List.cons_append]
  rfl

theorem xC2_last : xC2.getLast? = some 'b' := by
  unfold xC2
  rw [show ([' ', 'b'] : List Char) = [' '] ++ ['b'] from rfl, ← List.append_assoc]
  exact List.getLast?_concat _

theorem sanitize_xC2_eq :
    sanitize_filename xC2 = List.replicate 199 'a' ++ [' '] := by
  have h1 : xC2.dropWhile isSpaceChar = xC2 :=
    dropWhile_eq_self_of_head_eq xC2_head (by decide)
  have h2 : xC2.reverse.dropWhile isSpaceChar = xC2.reverse := by
    apply dropWhile_eq_self_of_head_eq (a := 'b') _ (by decide)
    rw [List.head?_reverse]
    exact xC2_last
  have hstrip : stripList xC2 = xC2 := by
    unfold stripList
    rw [h1, h2, List.reverse_reverse]
  have hlen : xC2.length = 201 := by
    simp [xC2]
  have htake : xC2.take 200 = List.replicate 199 'a' ++ [' '] := by
    have hx : xC2 = (List.replicate 199 'a' ++ [' ']) ++ ['b'] := by
      rw [List.append_assoc]
      rfl
    rw [hx]
    apply List.take_left'
    simp
  unfold sanitize_filename
  rw [replaceIllegal_eq_self xC2_keep,
    show stripDisallowed xC2 = xC2 from List.filter_eq_self.mpr xC2_keep,
    hstrip]
  unfold truncate200
  rw [if_pos (by rw [hlen]; omega), htake]

theorem sanitize_xC2_twice :
    sanitize_filename (List.replicate 199 'a' ++ [' ']) = List.replicate 199 'a' := by
  have hkeep : ∀ c ∈ List.replicate 199 'a' ++ [' '], keepChar c = true := by
    intro c hc
    rw [List.mem_append] at hc
    cases hc with
    | inl h =>
      rw [List.eq_of_mem_replicate h]
      decide
    | inr h =>
      rw [List.mem_singleton] at h
      subst h
      decide
  have hhead : (List.replicate 199 'a' ++ [' ']).head? = some 'a' := by
    rw [show (199 : Nat) = 198 + 1 from rfl, List.replicate_succ, List.cons_append]
    rfl
  have h1 : (List.replicate 199 'a' ++ [' ']).dropWhile isSpaceChar =
      List.replicate 199 'a' ++ [' '] :=
    dropWhile_eq_self_of_head_eq hhead (by decide)
  have h2 : (List.replicate 199 'a' ++ [' ']).reverse.dropWhile isSpaceChar =
      List.replicate 199 'a' := by
    rw [List.reverse_append, List.reverse_replicate]
    show (' ' :: List.replicate 199 'a').dropWhile isSpaceChar = List.replicate 199 'a'
    rw [List.dropWhile_cons_of_pos (by decide), List.dropWhile_replicate,
      if_neg (by decide)]
  have hstrip : stripList (List.replicate 199 'a' ++ [' ']) =
      List.replicate 199 'a' := by
    unfold stripList
    rw [h1, h2, List.reverse_replicate]
  unfold sanitize_filename
  rw [replaceIllegal_eq_self hkeep,
    show stripDisallowed (List.replicate 199 'a' ++ [' ']) =
      List.replicate 199 'a' ++ [' '] from List.filter_eq_self.mpr hkeep,
    hstrip]
  unfold truncate200
  rw [if_neg (by rw [List.length_replicate]; omega)]

/-- C2 (counterexample): the sanitizer is not idempotent.  On the
201-character input of 199 'a's, a space, and a 'b', the truncation leaves
a trailing space, which a second application strips again. -/
theorem C2_counterexample :
    sanitize_filename (sanitize_filename xC2) ≠ sanitize_filename xC2 := by
  rw [sanitize_xC2_eq, sanitize_xC2_twice]
  intro h
  have hl := congrArg List.length h
  simp at hl

/-- C2 (amended): the sanitizer is idempotent on every input whose sanitized
form does not end in whitespace — in particular whenever the truncation step
does not cut the string right after a space.  (The unamended claim fails only
on inputs whose 200-character truncation ends in whitespace.) -/
theorem C2_sanitize_idempotent_amended (x : Pstr)
    (h : endsInSpace (sanitize_filename x) = false) :
    sanitize_filename (sanitize_filename x) = sanitize_filename x := by
  apply sanitize_fixed
  · intro c hc
    exact keepChar_of_mem_sanitize hc
  · intro c hc
    exact head?_sanitize_not_space x c hc
  · intro c hc
    unfold endsInSpace at h
    rw [hc] at h
    exact h
  · exact sanitize_length_le x

/-- C2 witness: the amended idempotence theorem applied at a concrete title. -/
theorem C2_witness :
    endsInSpace (sanitize_filename xC2w) = false ∧
    sanitize_filename (sanitize_filename xC2w) = sanitize_filename xC2w :=
  ⟨by decide, C2_sanitize_idempotent_amended xC2w (by decide)⟩

/-- C3: the sanitizer equals the four-step reference definition from the
spec (replace illegal characters, delete disallowed characters, trim
whitespace, truncate to 200), it is total, its output never exceeds 200
characters and never contains an illegal character, and the empty input
yields the empty string. -/
theorem C3_sanitize_matches_reference (s : Pstr) :
    sanitize_filename s = sanitizeSpecRef s ∧
    (sanitize_filename s).length ≤ 200 ∧
    (∀ c ∈ sanitize_filename s, c ∉ illegalChars) ∧
    sanitize_filename ([] : Pstr) = [] :=
  ⟨sanitize_eq_specRef s, sanitize_length_le s,
   fun _ hc => not_illegal_of_mem_sanitize hc, rfl⟩

/-! ### Claim C1 -/

/-- C1 (counterexample): on an oversized file the code performs the checks
in the order existence, ceiling — the zero-size check never runs — whereas
the claimed order is existence, zero size, ceiling. -/
theorem C1_counterexample :
    (gate (some 52428801)).2 ≠ (gateClaimedOrder (some 52428801)).2 := by
  decide

/-- C1 (amended): the delivery gate classifies by size exactly as specified —
a missing file is rejected as missing, a zero-byte file as empty, 1 through
52,428,800 bytes is accepted, 52,428,801 bytes or more is rejected as too
large (so the outcome agrees with the claimed-order gate everywhere) — but
the checks run in the order: existence, then size ceiling, then zero size. -/
theorem C1_gate_amended (n : Nat) :
    (gate none).1 = .rejectedMissing ∧
    (n = 0 → (gate (some n)).1 = .rejectedEmpty) ∧
    (1 ≤ n → n ≤ 52428800 → (gate (some n)).1 = .accepted) ∧
    (52428801 ≤ n → (gate (some n)).1 = .rejectedTooLarge) ∧
    (gate (some n)).1 = (gateClaimedOrder (some n)).1 ∧
    (gate (some n)).2 = (if n > sizeCap then [.existenceCheck, .ceilingCheck]
      else [.existenceCheck, .ceilingCheck, .zeroSizeCheck]) := by
  refine ⟨rfl, ?_, ?_, ?_, ?_, ?_⟩
  · intro h
    subst h
    decide
  · intro h1 h2
    simp only [gate, sizeCap]
    rw [if_neg (by omega), if_neg (by omega)]
  · intro h
    simp only [gate, sizeCap]
    rw [if_pos (by omega)]
  · simp only [gate, gateClaimedOrder, sizeCap]
    by_cases h0 : n = 0
    · subst h0
      decide
    · by_cases hc : n > 50 * 1024 * 1024
      · rw [if_pos hc, if_neg h0, if_pos hc]
      · rw [if_neg hc, if_neg h0, if_neg hc, if_neg h0]
  · simp only [gate]
    by_cases hc : n > sizeCap
    · rw [if_pos hc, if_pos hc]
    · rw [if_neg hc, if_neg hc]
      by_cases h0 : n = 0
      · rw [if_pos h0]
      · rw [if_neg h0]

/-- C1 witness: the amended gate theorem applied to a 100-byte file. -/
theorem C1_witness : (gate (some 100)).1 = GateOutcome.accepted :=
  (C1_gate_amended 100).2.2.1 (by decide) (by decide)

/-! ### Claim C4 -/

theorem selectMessage_mem_templates (e : PyExn) :
    selectMessage e ∈ failureTemplates := by
  cases e with
  | downloadError d =>
    by_cases h : isAccessRestricted d
    · simp [selectMessage, h, failureTemplates]
    · simp [selectMessage, h, failureTemplates]
  | fileNotFound => simp [selectMessage, failureTemplates]
  | timeoutError => simp [selectMessage, failureTemplates]
  | otherExn d => simp [selectMessage, failureTemplates]

/-- C4: the failing pipeline's user message is always chosen from the fixed
set of five templates — the message is one of five constants, so the raw
internal error string is never part of it — and a download error whose
message reports the track as private selects the access-restricted
template. -/
theorem C4_failure_message_selection (e : PyExn) (d : Pstr)
    (hpriv : isSubstring (("private").data) (lowerStr d) = true) :
    selectMessage e ∈ failureTemplates ∧
    selectMessage (.downloadError d) = accessErrorMsg := by
  refine ⟨selectMessage_mem_templates e, ?_⟩
  simp only [selectMessage, isAccessRestricted, hpriv, Bool.true_or, if_true]

/-- C4 witness: the selection theorem applied to a concrete timeout
exception and a concrete "track is private" extraction failure. -/
theorem C4_witness :
    isSubstring (("private").data) (lowerStr (("This track is Private").data)) = true ∧
    (selectMessage .timeoutError ∈ failureTemplates ∧
      selectMessage (.downloadError (("This track is Private").data)) = accessErrorMsg) :=
  ⟨by decide,
   C4_failure_message_selection .timeoutError (("This track is Private").data) (by decide)⟩

/-! ### Claim C8 -/

/-- C8 (counterexample): a present, numeric duration of 0 seconds is
formatted as the "unknown" text, not as the claimed zero-padded MM:SS
rendering "00:00". -/
theorem C8_counterexample :
    formatDuration (some (.pyInt 0)) ≠
      pad2 (Int.fdiv 0 60) ++ ':' :: pad2 (Int.emod 0 60) ∧
    formatDuration (some (.pyInt 0)) = ("Неизвестно").data := by
  constructor
  · decide
  · decide

/-- C8 (amended): the caption's duration is the zero-padded MM:SS rendering
(minutes = duration div 60, seconds = duration mod 60, Python floor
semantics) for every *nonzero* numeric duration, and the "unknown" text
exactly when the duration is absent, non-numeric, or zero (Python's
truthiness test `if duration and isinstance(...)` treats 0 as false); the
outgoing caption embeds that duration string. -/
theorem C8_caption_duration_amended (info : Info) (size : Nat) (n : Int)
    (hn : n ≠ 0) :
    formatDuration (some (.pyInt n)) = pad2 (n.fdiv 60) ++ ':' :: pad2 (n.emod 60) ∧
    formatDuration (some (.pyInt 0)) = ("Неизвестно").data ∧
    formatDuration none = ("Неизвестно").data ∧
    (∀ s, formatDuration (some (.pyStr s)) = ("Неизвестно").data) ∧
    formatDuration (some .pyNone) = ("Неизвестно").data ∧
    formatDuration info.duration <:+: buildCaption info size := by
  refine ⟨?_, by decide, by decide, ?_, by decide, ?_⟩
  · simp [formatDuration, truthy, isNumeric, asInt, hn]
  · intro s
    simp [formatDuration, truthy, isNumeric, Bool.and_false]
  · refine ⟨("🎵 <b>").data ++ info.title.getD (("Неизвестный трек").data) ++
      ("</b>\n👤 <b>Исполнитель:</b> ").data ++
      info.uploader.getD (("Неизвестный исполнитель").data) ++
      ("\n⏱ <b>Длительность:</b> ").data,
      ("\n💾 <b>Размер:</b> ").data ++ sizeMBStr size ++
      (" MB\n\n<i>Загружено с SoundCloud</i>").data, ?_⟩
    simp only [buildCaption, List.append_assoc]

/-- C8 witness: the amended theorem applied at the end-to-end scenario's
metadata (duration 125, 2 MiB payload); 125 seconds renders as "02:05". -/
theorem C8_witness :
    (125 : Int) ≠ 0 ∧ formatDuration (some (.pyInt 125)) = ("02:05").data :=
  ⟨by decide,
   ((C8_caption_duration_amended infoSong 2097152 125 (by decide)).1).trans (by decide)⟩

/-! ### Claims C5, C6, C7 -/

theorem cleanupScratch_eq_nil (files : List Pstr) : cleanupScratch files = [] := by
  simp [cleanupScratch]

/-- C5: whatever the extractor does and whatever sizes the files have —
covering the successful send, both validation rejections, the extraction
and network errors, the missing-file error, the timeout, and the
catch-all fault — the scratch directory is empty once the handler's
`with tempfile.TemporaryDirectory()` block exits. -/
theorem C5_scratch_removed (ex : Extractor) (sizeOf : Pstr → Nat) :
    (soundcloud_handler ex sizeOf).scratchAfterExit = [] := by
  simp [soundcloud_handler, cleanupScratch]

/-- C6 (counterexample): when the metadata query returns no result, the
raised error is a plain `Exception` that lands in the handler's catch-all
clause: the user message is the generic *unclassified* template, not a
message of a distinct extraction-empty category — it differs from every
other template. -/
theorem C6_counterexample :
    (soundcloud_handler emptyExtractor (fun _ => 0)).outcome =
      .failed unexpectedMsg ∧
    unexpectedMsg ≠ accessErrorMsg ∧ unexpectedMsg ≠ platformErrorMsg ∧
    unexpectedMsg ≠ missingFileMsg ∧ unexpectedMsg ≠ timeoutMsg := by
  refine ⟨rfl, by decide, by decide, by decide, by decide⟩

/-- C6 (amended): whenever the metadata-only extraction query returns no
result, `download_track` fails — by raising a generic exception with the
fixed message "Could not extract track information", which the handler
classifies with the *unclassified* template — and creates no residual file
in the scratch directory. -/
theorem C6_extraction_empty_amended (ex : Extractor) (sizeOf : Pstr → Nat)
    (h1 : ex.info = none) (h2 : ex.exn = none) :
    download_track ex =
      ([], .error (.otherExn (("Could not extract track information").data))) ∧
    (soundcloud_handler ex sizeOf).outcome = .failed unexpectedMsg ∧
    (soundcloud_handler ex sizeOf).scratchBeforeCleanup = [] ∧
    (soundcloud_handler ex sizeOf).scratchAfterExit = [] := by
  have hd : download_track ex =
      ([], .error (.otherExn (("Could not extract track information").data))) := by
    unfold download_track
    rw [h2, h1]
  refine ⟨hd, ?_, ?_, ?_⟩
  · simp [soundcloud_handler, hd, selectMessage]
  · simp [soundcloud_handler, hd]
  · simp [soundcloud_handler, hd, cleanupScratch]

/-- C6 witness: the amended theorem applied to the concrete empty-result
extractor. -/
theorem C6_witness :
    emptyExtractor.info = none ∧
    (soundcloud_handler emptyExtractor (fun _ => 0)).scratchBeforeCleanup = [] :=
  ⟨rfl, (C6_extraction_empty_amended emptyExtractor (fun _ => 0) rfl rfl).2.2.1⟩

/-- C7: when the expected `.mp3` target is absent after the download, the
acquirer probes `.mp3`, `.m4a`, `.opus`, `.webm` under the same sanitized
stem in that order; the first existing candidate is renamed onto the
expected `.mp3` path, which is returned with the metadata; if no candidate
exists it fails with `FileNotFoundError` (the `DownloadedFileMissing`
category). -/
theorem C7_fallback_rename (ex : Extractor) (info : Info) (stem : Pstr)
    (hexn : ex.exn = none) (hinfo : ex.info = some info)
    (hstem : stem = sanitize_filename (info.title.getD (("track").data)))
    (hmiss : ex.created.contains (stem ++ (".mp3").data) = false) :
    (∀ pre ext post, fallbackExts = pre ++ ext :: post →
        ex.created.contains (stem ++ ext) = true →
        (∀ e2 ∈ pre, ex.created.contains (stem ++ e2) = false) →
        download_track ex =
          ((stem ++ (".mp3").data) :: ex.created.erase (stem ++ ext),
            .ok (stem ++ (".mp3").data, info))) ∧
    ((∀ e2 ∈ fallbackExts, ex.created.contains (stem ++ e2) = false) →
        download_track ex = (ex.created, .error .fileNotFound)) := by
  subst hstem
  constructor
  · intro pre ext post hdec hext hpre
    have hfind : fallbackExts.find?
        (fun e2 => ex.created.contains
          (sanitize_filename (info.title.getD (("track").data)) ++ e2)) = some ext := by
      rw [List.find?_eq_some]
      refine ⟨hext, pre, post, hdec, ?_⟩
      intro a ha
      have h2 := hpre a ha
      simp at h2 ⊢
      exact h2
    unfold download_track
    rw [hexn, hinfo]
    simp only [hmiss, Bool.false_eq_true, if_false]
    rw [hfind]
  · intro hnone
    have hfind : fallbackExts.find?
        (fun e2 => ex.created.contains
          (sanitize_filename (info.title.getD (("track").data)) ++ e2)) = none := by
      rw [List.find?_eq_none]
      intro a ha
      have h2 := hnone a ha
      simp at h2 ⊢
      exact h2
    unfold download_track
    rw [hexn, hinfo]
    simp only [hmiss, Bool.false_eq_true, if_false]
    rw [hfind]

/-- C7 witness: the fallback theorem applied to a concrete download whose
artifact landed under `.m4a`; it is renamed to the `.mp3` path. -/
theorem C7_witness :
    download_track exW =
      ([("Song Title.mp3").data], .ok ((("Song Title.mp3").data), infoW)) := by
  have h := (C7_fallback_rename exW infoW (("Song Title").data) rfl rfl (by decide)
      (by decide)).1
    [(".mp3").data] ((".m4a").data) [(".opus").data, (".webm").data]
    (by decide) (by decide) (by decide)
  rw [h]
  rfl

/-! ### Soundness and completeness of the link matcher -/

theorem stripPrefixL_append (p t : Pstr) : stripPrefixL p (p ++ t) = some t := by
  induction p with
  | nil => rfl
  | cons a ps ih => simp [stripPrefixL, ih]

theorem stripPrefixL_eq_some {p s t : Pstr} (h : stripPrefixL p s = some t) :
    s = p ++ t := by
  induction p generalizing s with
  | nil =>
    simp only [stripPrefixL, Option.some.injEq] at h
    rw [List.nil_append, h]
  | cons a ps ih =>
    cases s with
    | nil => exact absurd h (by simp [stripPrefixL])
    | cons c cs =>
      simp only [stripPrefixL] at h
      by_cases hac : a = c
      · rw [if_pos hac] at h
        subst hac
        rw [List.cons_append, ih h]
      · rw [if_neg hac] at h
        exact absurd h (by simp)

theorem consumeS_s (u : Pstr) : consumeS ('s' :: u) = u := by
  simp [consumeS]

theorem consumeS_ne {c : Char} (u : Pstr) (h : c ≠ 's') :
    consumeS (c :: u) = c :: u := by
  simp [consumeS, h]

theorem stripPrefixL_ne {a c : Char} {ps cs : Pstr} (h : a ≠ c) :
    stripPrefixL (a :: ps) (c :: cs) = none := by
  simp [stripPrefixL, h]

theorem stripLiteral_append (secure www : Bool) (t : Pstr) :
    stripLiteral (schemeStr secure ++ wwwStr www ++ scDomain ++ t) = some t := by
  cases secure <;> cases www <;>
    simp [stripLiteral, schemeStr, wwwStr, consumeS, consumeWWW, stripPrefixL,
      scDomain, httpLit, schemeSep, wwwLit, List.append_assoc]

theorem stripLiteral_eq_some {s t : Pstr} (h : stripLiteral s = some t) :
    ∃ secure www, s = schemeStr secure ++ wwwStr www ++ scDomain ++ t := by
  unfold stripLiteral at h
  split at h
  · exact absurd h (by simp)
  · rename_i t0 h0
    split at h
    · exact absurd h (by simp)
    · rename_i t2 h1
      have hs0 : s = httpLit ++ t0 := stripPrefixL_eq_some h0
      have hwww : ∃ www, t2 = wwwStr www ++ scDomain ++ t := by
        cases h2 : stripPrefixL wwwLit t2 with
        | some u =>
          have ht2 : t2 = wwwLit ++ u := stripPrefixL_eq_some h2
          have hcw : consumeWWW t2 = u := by simp [consumeWWW, h2]
          rw [hcw] at h
          have hu : u = scDomain ++ t := stripPrefixL_eq_some h
          exact ⟨true, by rw [ht2, hu]; simp [wwwStr, List.append_assoc]⟩
        | none =>
          have hcw : consumeWWW t2 = t2 := by simp [consumeWWW, h2]
          rw [hcw] at h
          have hu : t2 = scDomain ++ t := stripPrefixL_eq_some h
          exact ⟨false, by rw [hu]; simp [wwwStr]⟩
      obtain ⟨www, ht2⟩ := hwww
      cases t0 with
      | nil => exact absurd h1 (by simp [consumeS, schemeSep, stripPrefixL])
      | cons c u0 =>
        by_cases hc : c = 's'
        · subst hc
          rw [consumeS_s] at h1
          have hu0 : u0 = schemeSep ++ t2 := stripPrefixL_eq_some h1
          refine ⟨true, www, ?_⟩
          rw [hs0, hu0, ht2]
          simp [schemeStr, List.append_assoc]
        · rw [consumeS_ne u0 hc] at h1
          have hu0 : c :: u0 = schemeSep ++ t2 := stripPrefixL_eq_some h1
          refine ⟨false, www, ?_⟩
          rw [hs0, hu0, ht2]
          simp [schemeStr, List.append_assoc]

theorem tailMatch_eq_true {t : Pstr} (h : tailMatch t = true) :
    ∃ owner c rest, owner ≠ [] ∧ (∀ x ∈ owner, segChar x = true) ∧
      segChar c = true ∧ t = owner ++ '/' :: c :: rest := by
  unfold tailMatch at h
  rw [Bool.and_eq_true] at h
  obtain ⟨h1, h2⟩ := h
  cases hdw : t.dropWhile segChar with
  | nil => rw [hdw] at h2; exact absurd h2 (by simp)
  | cons d r1 =>
    cases r1 with
    | nil => rw [hdw] at h2; exact absurd h2 (by simp)
    | cons c rest =>
      rw [hdw] at h2
      rw [Bool.and_eq_true, beq_iff_eq] at h2
      obtain ⟨hd, hc⟩ := h2
      subst hd
      refine ⟨t.takeWhile segChar, c, rest, ?_, ?_, hc, ?_⟩
      · intro hne
        rw [hne] at h1
        exact absurd h1 (by simp)
      · intro x hx
        exact List.mem_takeWhile_imp hx
      · rw [← hdw]
        exact (List.takeWhile_append_dropWhile segChar t).symm

theorem matchAt_eq_true {s : Pstr} (h : matchAt s = true) :
    ∃ secure www owner c rest, owner ≠ [] ∧ (∀ x ∈ owner, segChar x = true) ∧
      segChar c = true ∧
      s = schemeStr secure ++ wwwStr www ++ scDomain ++ (owner ++ '/' :: c :: rest) := by
  unfold matchAt at h
  cases hsl : stripLiteral s with
  | none => rw [hsl] at h; exact absurd h (by simp)
  | some t =>
    rw [hsl] at h
    obtain ⟨secure, www, hs⟩ := stripLiteral_eq_some hsl
    obtain ⟨owner, c, rest, h1, h2, h3, ht⟩ := tailMatch_eq_true h
    exact ⟨secure, www, owner, c, rest, h1, h2, h3, by rw [hs, ht]⟩

theorem tailMatch_of_parts (owner : Pstr) (c : Char) (rest : Pstr)
    (h1 : owner ≠ []) (h2 : ∀ x ∈ owner, segChar x = true)
    (h3 : segChar c = true) :
    tailMatch (owner ++ '/' :: c :: rest) = true := by
  have ht : (owner ++ '/' :: c :: rest).takeWhile segChar = owner := by
    rw [List.takeWhile_append_of_pos h2, List.takeWhile_cons_of_neg (by decide)]
    simp
  have hd : (owner ++ '/' :: c :: rest).dropWhile segChar = '/' :: c :: rest := by
    rw [List.dropWhile_append_of_pos h2, List.dropWhile_cons_of_neg (by decide)]
  unfold tailMatch
  rw [ht, hd]
  simp [h1, h3]

theorem matchAt_of_parts (secure www : Bool) (owner : Pstr) (c : Char)
    (rest : Pstr) (h1 : owner ≠ []) (h2 : ∀ x ∈ owner, segChar x = true)
    (h3 : segChar c = true) :
    matchAt (schemeStr secure ++ wwwStr www ++ scDomain ++
      (owner ++ '/' :: c :: rest)) = true := by
  unfold matchAt
  rw [stripLiteral_append]
  exact tailMatch_of_parts owner c rest h1 h2 h3

theorem containsMatch_cons (a : Char) (r : Pstr) :
    containsMatch (a :: r) = (matchAt (a :: r) || containsMatch r) := rfl

theorem containsMatch_of_matchAt {s : Pstr} (h : matchAt s = true) :
    containsMatch s = true := by
  cases s with
  | nil => exact absurd h (by decide)
  | cons a r => rw [containsMatch_cons, h, Bool.true_or]

theorem containsMatch_append_of (pre : Pstr) {s : Pstr}
    (h : containsMatch s = true) : containsMatch (pre ++ s) = true := by
  induction pre with
  | nil => simpa using h
  | cons a pr ih => rw [List.cons_append, containsMatch_cons, ih, Bool.or_true]

theorem hasMatch_of_containsMatch {s : Pstr} (h : containsMatch s = true) :
    HasMatch s := by
  induction s with
  | nil => exact absurd h (by decide)
  | cons a r ih =>
    rw [containsMatch_cons, Bool.or_eq_true] at h
    cases h with
    | inl hm =>
      obtain ⟨secure, www, owner, c, rest, h1, h2, h3, hs⟩ := matchAt_eq_true hm
      exact ⟨[], secure, www, owner, c, rest, h1, h2, h3, by simpa using hs⟩
    | inr hc =>
      obtain ⟨pre, secure, www, owner, c, rest, h1, h2, h3, hs⟩ := ih hc
      exact ⟨a :: pre, secure, www, owner, c, rest, h1, h2, h3,
        by rw [List.cons_append, ← hs]⟩

theorem containsMatch_of_hasMatch {s : Pstr} (h : HasMatch s) :
    containsMatch s = true := by
  obtain ⟨pre, secure, www, owner, c, rest, h1, h2, h3, hs⟩ := h
  rw [hs]
  exact containsMatch_append_of pre
    (containsMatch_of_matchAt (matchAt_of_parts secure www owner c rest h1 h2 h3))

/-! ### Claims C9 and C10 -/

/-- C9: the link matcher is a pure function of the text; it returns a match
precisely for the strings containing an occurrence of the pattern
`https?://(www.)?soundcloud.com/<owner>/<slug...>` (nonempty segments of
word characters, hyphens, dots), and in particular it matches every string
that is exactly such a track URL. -/
theorem C9_link_matcher (s : Pstr) :
    (containsMatch s = true ↔ HasMatch s) ∧
    (IsTrackURL s → containsMatch s = true) := by
  refine ⟨⟨hasMatch_of_containsMatch, containsMatch_of_hasMatch⟩, ?_⟩
  intro hurl
  obtain ⟨secure, www, owner, slug, h1, h2, h3, h4, hs⟩ := hurl
  cases slug with
  | nil => exact absurd rfl h2
  | cons c rest =>
    apply containsMatch_of_hasMatch
    exact ⟨[], secure, www, owner, c, rest, h1, h3, h4 c (by simp),
      by simpa using hs⟩

/-- C9 witness: the matcher accepts the spec's exact sample URL. -/
theorem C9_witness : IsTrackURL urlW ∧ containsMatch urlW = true := by
  have hurl : IsTrackURL urlW :=
    ⟨true, false, ("artist").data, ("song-title").data,
      by decide, by decide, by decide, by decide, by decide⟩
  exact ⟨hurl, (C9_link_matcher urlW).2 hurl⟩

/-- The routing filter matches at the start of the text only, so a
triggered text begins with the literal `h` of the scheme. -/
theorem head_of_matchAt {text : Pstr} (h : matchAt text = true) :
    text.head? = some 'h' := by
  unfold matchAt at h
  cases hsl : stripLiteral text with
  | none =>
    rw [hsl] at h
    exact absurd h (by simp)
  | some t =>
    obtain ⟨secure, www, hs⟩ := stripLiteral_eq_some hsl
    rw [hs]
    cases secure <;> rfl

/-- A string whose head is not whitespace splits as its own strip plus
trailing whitespace: `str.strip()` removes nothing at the front. -/
theorem stripList_decomp_of_head {text : Pstr} {a : Char}
    (hh : text.head? = some a) (ha : isSpaceChar a = false) :
    ∃ post, (∀ c ∈ post, isSpaceChar c = true) ∧
      text = stripList text ++ post := by
  have h1 : text.dropWhile isSpaceChar = text :=
    dropWhile_eq_self_of_head_eq hh ha
  refine ⟨(text.reverse.takeWhile isSpaceChar).reverse, ?_, ?_⟩
  · intro c hc
    rw [List.mem_reverse] at hc
    exact List.mem_takeWhile_imp hc
  · have hA := List.takeWhile_append_dropWhile (p := isSpaceChar)
      (l := text.reverse)
    have h5 := congrArg List.reverse hA
    rw [List.reverse_append, List.reverse_reverse] at h5
    unfold stripList
    rw [h1]
    exact h5.symm

/-- C10 (counterexample): a message containing a track URL amid other
words — the pattern occurs unanchored as a substring — does not trigger
the pipeline, because the routing filter (aiogram's `F.text.regexp`,
`re.match` semantics) is anchored at the start of the text. -/
theorem C10_counterexample :
    containsMatch textW = true ∧ triggersHandler textW = false := by
  constructor
  · decide
  · decide

/-- C10 (amended): the routing filter is start-anchored (`re.match`), so
the pipeline is triggered exactly when the pattern matches at the start of
the message text — not for a URL anywhere as a substring.  When it is
triggered, the URL handed to the track acquirer is the entire
whitespace-stripped message text rather than the extracted match; such a
text starts with the match, so it has no leading whitespace, and the
handed string is the text minus trailing whitespace.  Hence the acquirer
receives a well-formed track URL only when the message consists of the URL
followed by nothing but whitespace. -/
theorem C10_url_whole_text (text : Pstr) (h : triggersHandler text = true) :
    handlerUrl text = stripList text ∧
    ∃ post, (∀ c ∈ post, isSpaceChar c = true) ∧
      text = handlerUrl text ++ post := by
  have hh : text.head? = some 'h' := head_of_matchAt h
  exact ⟨rfl, stripList_decomp_of_head hh (by decide)⟩

/-- C10 witness: a message that is the URL plus trailing whitespace
triggers the handler, and the handed string is the whole stripped text. -/
theorem C10_witness :
    triggersHandler urlWs = true ∧ handlerUrl urlWs = stripList urlWs :=
  ⟨by decide, (C10_url_whole_text urlWs (by decide)).1⟩

end SCBot
